import Mathlib

/-
Verification of the lobby lifecycle manager and rating engine of the
rank-tracker discord bot.

The registry state machine is embedded shallowly from src/lobby_manager.py:
the class-level mutable dict of lobbies becomes an explicit state value that
every operation takes and returns, Python exceptions become an error type in
an Except result, and the ambient clock (time.time()) becomes an explicit
integer-valued argument `now` to each operation.  Clock values and stored
ratings are modelled over the integers: the registry only adds, subtracts
and compares these scalars, so none of the registry-level properties below
depends on fractional values, and the rating arithmetic itself is verified
separately over the reals.  Python dicts preserve
insertion order, so the lobby table and the per-lobby scratch-record table
are modelled as insertion-ordered lists; Python sets are modelled as lists
whose order is never observed by the modelled operations except where the
source itself iterates them.

The persistent player store (players.py) is not among the source files; the
pieces of it that the registry calls into (get_record, get_elo, the record
dictionaries) are modelled from the spec and marked as such in their doc
comments.  The rating function used by the live registry is real-valued; the
registry embedding is parametric in the rating function (argument `ef`),
since every registry-level claim is independent of the numeric rating
values, and the rating engine itself is embedded separately over the reals.

File I/O (the match log) and task spawning are outside the modelled state;
the match-log append and the autocloser task creation are noted where they
occur in the source.
-/

/-! ## Basic data -/

/-- Stable participant identifier (Player objects are interned per ID by the
external PlayerManager, so object identity in the source coincides with ID
equality). -/
abbrev PlayerId := String

/-- A within-lobby scratch record, `{'matches_total': 0, 'W': 0, 'L': 0, 'D': 0}`
in src/lobby_manager.py. -/
structure LobbyRecord where
  matches_total : Nat
  W : Nat
  L : Nat
  D : Nat
deriving DecidableEq, Repr

/-- Modelled from the spec: the persistent per-(region, platform) Record of
the external player store (players.py is not among the source files).  Per
spec section 3 it holds a scalar rating and the counters matches_total, W, L
and D, created lazily with a fixed starting rating and zero counters.  The
registry source reads and writes the keys named elo and matches_total. -/
structure PlayerRecord where
  elo : ℤ
  matches_total : Nat
  W : Nat
  L : Nat
  D : Nat
deriving DecidableEq, Repr

/-- Modelled from the spec: the fixed starting rating of a lazily created
Record.  Its numeric value is immaterial to every claim below; 1000 follows
the example values of spec section 8. -/
def START_ELO : ℤ := 1000

/-- The persistent record store: participant ID and (region, platform) to an
optional Record.  Owned by players.py in the source; modelled as a function
component of the explicit state. -/
abbrev Store := PlayerId → String × String → Option PlayerRecord

/-- Modelled from the spec: Player.get_record — return the (region, platform)
Record, creating it lazily with the starting rating and zero counters when
absent (spec section 3), and the store after the touch. -/
def get_record (p : PlayerId) (key : String × String) (store : Store) :
    PlayerRecord × Store :=
  match store p key with
  | some r => (r, store)
  | none =>
      let r : PlayerRecord := ⟨START_ELO, 0, 0, 0, 0⟩
      (r, fun q k => if q = p ∧ k = key then some r else store q k)

/-- Modelled from the spec: Player.get_elo — the rating field of the
(region, platform) Record, touching (and so lazily creating) it. -/
def get_elo (p : PlayerId) (key : String × String) (store : Store) :
    ℤ × Store :=
  let rs := get_record p key store
  (rs.1.elo, rs.2)

/-- Read-modify-write of one Record in the store, as the source lines
`p1.records[(region, platform)][...] = ...` do.  A missing key would be a
KeyError in Python; every call site below touches the record via get_elo
first, so the key is present (on a missing key this model leaves the store
unchanged). -/
def store_set (store : Store) (p : PlayerId) (key : String × String)
    (f : PlayerRecord → PlayerRecord) : Store :=
  fun q k => if q = p ∧ k = key then (store p key).map f else store q k

/-- A lobby, the dict built in LobbyManager.new_lobby. -/
structure Lobby where
  ID : Nat
  region : String
  platform : String
  start_time : ℤ
  last_interaction : ℤ
  players : List PlayerId
  records : List (PlayerId × LobbyRecord)
  invited_players : List PlayerId
deriving DecidableEq, Repr

/-- The mutable class-level state of LobbyManager: the insertion-ordered
lobby table plus the persistent player store it mutates through Player
references. -/
structure LMState where
  lobbies : List Lobby
  store : Store

/-- Errors raised by LobbyManager operations.  ValueError and
PermissionError carry their message; the cooldown RuntimeError carries the
remaining-seconds value interpolated into its message; attributeError stands
for the AttributeError Python would raise when a result is reported in a
lobby with fewer than two scratch records (p1 or p2 left as None). -/
inductive Err where
  | value (msg : String)
  | permission (msg : String)
  | cooldown (wait : ℤ)
  | attributeError
deriving DecidableEq, Repr

/-! ## Rating engine (src/basic_functions.py) -/

/-- create_elo_function from src/basic_functions.py: the returned closure
computes the logistic expected score for each side and the K-scaled gains.
Python float arithmetic is modelled over the reals; the exponentiation is
real rpow. -/
noncomputable def create_elo_function (K diff xtimes : ℝ) :
    ℝ → ℝ → ℝ → ℝ × ℝ :=
  fun p1 p2 p1_wins =>
    let p1_expected : ℝ := 1 / (1 + xtimes ^ ((p2 - p1) / diff))
    let p2_expected : ℝ := 1 / (1 + xtimes ^ ((p1 - p2) / diff))
    (K * (p1_wins - p1_expected), K * ((1 - p1_wins) - p2_expected))

/-- The rating engine instance of LobbyManager:
`ELO_FUNCTION = create_elo_function(K=20, diff=100, xtimes=2)`. -/
noncomputable def ELO_FUNCTION : ℝ → ℝ → ℝ → ℝ × ℝ :=
  create_elo_function 20 100 2

/-! ## Registry constants (src/lobby_manager.py) -/

/-- Seconds to keep a lobby alive from creation. -/
def KEEPALIVE_DURATION : ℤ := 30 * 60

/-- Seconds to keep a lobby alive without activity. -/
def REFRESH_DURATION : ℤ := 3 * 60

/-- Minimum seconds between lobby actions (match results), per the source
comment. -/
def COOLDOWN_TIME : ℤ := 30

/-! ## Registry operations -/

/-- LobbyManager.update_lobby: refresh a lobby last_interaction time. -/
def update_lobby (l : Lobby) (now : ℤ) : Lobby :=
  { l with last_interaction := now }

/-- LobbyManager.find_lobby: the first lobby (in table order) whose seated
set contains the player, if any; the source raises ValueError when there is
none, which each caller handles. -/
def find_lobby (p : PlayerId) (st : LMState) : Option Lobby :=
  st.lobbies.find? (fun l => decide (p ∈ l.players))

/-- Write a mutated lobby back into the table.  In Python the found lobby
dict is mutated in place, which updates the table entry holding it; here the
entry with the same identifier (table keys are unique) is replaced. -/
def replace_lobby (lobbies : List Lobby) (id : Nat) (l : Lobby) : List Lobby :=
  lobbies.map (fun e => if e.ID = id then l else e)

/-- The lobby dict literal built by LobbyManager.new_lobby for a fresh
identifier: creator seated alone, self-invited, one zeroed scratch record,
both timestamps stamped to now. -/
def new_lobby_entry (id : Nat) (p : PlayerId) (region platform : String)
    (now : ℤ) : Lobby :=
  { ID := id
    region := region
    platform := platform
    start_time := now
    last_interaction := now
    players := [p]
    records := [(p, ⟨0, 0, 0, 0⟩)]
    invited_players := [p] }

/-- LobbyManager.new_lobby.  Fails for a banned creator or one already
seated somewhere; otherwise touches the creator Record for the region and
platform, then scans identifiers 1..999 for a free one.  When one is found
the new lobby is appended to the table (and, in the source, an autocloser
task is spawned — outside this state); when all 999 are taken the Python
loop falls through and the function implicitly returns None. -/
def new_lobby (banned : PlayerId → Bool) (p : PlayerId)
    (region platform : String) (now : ℤ) (st : LMState) :
    Except Err (Option Lobby × LMState) :=
  if banned p then .error (.permission "Player is banned from ranked.")
  else if st.lobbies.any (fun l => decide (p ∈ l.players)) then
    .error (.value "Player is already in a lobby.")
  else
    let store1 := (get_record p (region, platform) st.store).2
    match (List.range' 1 999).find?
        (fun id => !(st.lobbies.any (fun l => decide (l.ID = id)))) with
    | some id =>
        let lobby := new_lobby_entry id p region platform now
        .ok (some lobby, ⟨st.lobbies ++ [lobby], store1⟩)
    | none => .ok (none, ⟨st.lobbies, store1⟩)

/-- LobbyManager.invite_to_lobby: add the guest to the invited set of the
host lobby (a set add: idempotent). -/
def invite_to_lobby (host guest : PlayerId) (st : LMState) :
    Except Err LMState :=
  match find_lobby host st with
  | none => .error (.value "Player not in a lobby.")
  | some lobby =>
      let lobby1 :=
        { lobby with
          invited_players :=
            if guest ∈ lobby.invited_players then lobby.invited_players
            else lobby.invited_players ++ [guest] }
      .ok ⟨replace_lobby st.lobbies lobby.ID lobby1, st.store⟩

/-- The mutation join_lobby performs on the host lobby: seat the joiner,
give them a zeroed scratch record, refresh last_interaction. -/
def join_update (l : Lobby) (joiner : PlayerId) (now : ℤ) : Lobby :=
  update_lobby
    { l with
      players := l.players ++ [joiner]
      records := l.records ++ [(joiner, ⟨0, 0, 0, 0⟩)] }
    now

/-- LobbyManager.join_lobby, with its checks in source order: banned joiner,
host has no lobby, joiner already in this lobby, joiner seated in a
different lobby (dict inequality), lobby full (more than one seated),
joiner not invited. -/
def join_lobby (banned : PlayerId → Bool) (host joiner : PlayerId)
    (now : ℤ) (st : LMState) : Except Err LMState :=
  if banned joiner then .error (.permission "You are banned from ranked.")
  else
    match find_lobby host st with
    | none => .error (.value "Host is not in a lobby.")
    | some lobby =>
        if joiner ∈ lobby.players then
          .error (.value "You are already in this lobby.")
        else if st.lobbies.any
            (fun l2 => decide (joiner ∈ l2.players) && decide (l2 ≠ lobby)) then
          .error (.value "You are already in another lobby.")
        else if 1 < lobby.players.length then
          .error (.value "Host lobby is full.")
        else if joiner ∉ lobby.invited_players then
          .error (.permission "You have not been invited to this lobby.")
        else
          .ok ⟨replace_lobby st.lobbies lobby.ID (join_update lobby joiner now),
               st.store⟩

/-- The mutation leave_lobby performs on the found lobby: unseat the player,
delete their scratch record (dict del, a single key), refresh
last_interaction. -/
def leave_update (l : Lobby) (p : PlayerId) (now : ℤ) : Lobby :=
  update_lobby
    { l with
      players := l.players.erase p
      records := l.records.filter (fun pr => decide (pr.1 ≠ p)) }
    now

/-- LobbyManager.leave_lobby.  An empty lobby is deliberately not closed
here (source comment: let it close automatically). -/
def leave_lobby (p : PlayerId) (now : ℤ) (st : LMState) :
    Except Err LMState :=
  match find_lobby p st with
  | none => .error (.value "Player not in a lobby.")
  | some lobby =>
      .ok ⟨replace_lobby st.lobbies lobby.ID (leave_update lobby p now),
           st.store⟩

/-! ## Result reporting (src/lobby_manager.py report_match_result) -/

/-- The counter updates of the report_match_result loop over the scratch
records of the lobby: in a decisive result every record gains a match and
the winner key gains a W while every other key gains an L; in a draw every
record gains a match and a D. -/
def bump_records (winner : PlayerId) (draw : Bool)
    (records : List (PlayerId × LobbyRecord)) : List (PlayerId × LobbyRecord) :=
  if !draw then
    records.map (fun pr =>
      if pr.1 = winner then
        (pr.1, { pr.2 with matches_total := pr.2.matches_total + 1, W := pr.2.W + 1 })
      else
        (pr.1, { pr.2 with matches_total := pr.2.matches_total + 1, L := pr.2.L + 1 }))
  else
    records.map (fun pr =>
      (pr.1, { pr.2 with matches_total := pr.2.matches_total + 1, D := pr.2.D + 1 }))

/-- The p1/p2 selection of the same loop: in a decisive result p1 is bound
to the winner key when present and p2 to the last non-winner key; in a draw
p1 and p2 are the first and second keys in table order. -/
def report_p1p2 (winner : PlayerId) (draw : Bool)
    (records : List (PlayerId × LobbyRecord)) :
    Option PlayerId × Option PlayerId :=
  if !draw then
    ((if records.any (fun pr => decide (pr.1 = winner)) then some winner else none),
     ((records.filter (fun pr => decide (pr.1 ≠ winner))).getLast?).map Prod.fst)
  else
    ((records.head?).map Prod.fst, (records[1]?).map Prod.fst)

/-- The data of the formatted result string returned by
report_match_result (display names and Discord markup are presentation
only and omitted). -/
structure Summary where
  p1 : PlayerId
  p2 : PlayerId
  p1_old_elo : ℤ
  p2_old_elo : ℤ
  p1_gain : ℤ
  p2_gain : ℤ
  draw : Bool
deriving DecidableEq, Repr

/-- LobbyManager.report_match_result.  Steps in source order: resolve the
reporter lobby; cooldown gate against last_interaction; bump the scratch
records and bind p1/p2; fetch both current persistent ratings (touching the
Records); for a draw reorder so p1 has the lower rating, re-fetching the
ratings; compute the gains with the rating function; write both new ratings
and bump both persistent matches_total counters; append to the match log
(file I/O, outside this state).  The function never refreshes
last_interaction.  `ef` abstracts the class constant ELO_FUNCTION (the
registry control flow is independent of its values). -/
def report_match_result (ef : ℤ → ℤ → ℚ → ℤ × ℤ) (winner : PlayerId)
    (draw : Bool) (now : ℤ) (st : LMState) : Except Err (Summary × LMState) :=
  match find_lobby winner st with
  | none => .error (.value "Player not in a lobby.")
  | some lobby =>
      let key : String × String := (lobby.region, lobby.platform)
      let wait_duration := lobby.last_interaction + COOLDOWN_TIME - now
      if 0 < wait_duration then .error (.cooldown wait_duration)
      else
        let lobbies1 := replace_lobby st.lobbies lobby.ID
          { lobby with records := bump_records winner draw lobby.records }
        match report_p1p2 winner draw lobby.records with
        | (some p1, some p2) =>
            let e1 := get_elo p1 key st.store
            let e2 := get_elo p2 key e1.2
            let swapped := draw && decide (e2.1 < e1.1)
            let q1 := if swapped then p2 else p1
            let q2 := if swapped then p1 else p2
            let f1 := get_elo q1 key e2.2
            let f2 := get_elo q2 key f1.2
            let result := ef f1.1 f2.1 (if draw then (1 : ℚ)/2 else 1)
            let p1_new_elo := f1.1 + result.1
            let p2_new_elo := f2.1 + result.2
            let s1 := store_set f2.2 q1 key (fun r => { r with elo := p1_new_elo })
            let s2 := store_set s1 q2 key (fun r => { r with elo := p2_new_elo })
            let s3 := store_set s2 q1 key
              (fun r => { r with matches_total := r.matches_total + 1 })
            let s4 := store_set s3 q2 key
              (fun r => { r with matches_total := r.matches_total + 1 })
            .ok (⟨q1, q2, f1.1, f2.1, result.1, result.2, draw⟩, ⟨lobbies1, s4⟩)
        | _ => .error .attributeError

/-! ## The /result command (src/bot.py result) -/

/-- The four choices of the /result slash command. -/
inductive MatchResultChoice where
  | iWon
  | iLost
  | drawGame
  | undo
deriving DecidableEq, Repr

/-- The visible outcome of the /result command handler. -/
inductive CmdOut where
  | notInLobbyMsg
  | emptyLobbyMsg
  | notedUndo
  | reported (s : Summary)
  | reportError (e : Err)
deriving DecidableEq, Repr

/-- The result slash-command handler in src/bot.py: resolve the reporter
lobby (message when absent), find the opponent as the first seated player
other than the reporter (message when absent), pick the winner, then either
log an undo (file I/O only) or delegate to report_match_result.  The
returned state is the registry state after the handler. -/
def result_command (ef : ℤ → ℤ → ℚ → ℤ × ℤ) (this_player : PlayerId)
    (mr : MatchResultChoice) (now : ℤ) (st : LMState) : CmdOut × LMState :=
  match find_lobby this_player st with
  | none => (.notInLobbyMsg, st)
  | some lobby =>
      match lobby.players.find? (fun q => decide (q ≠ this_player)) with
      | none => (.emptyLobbyMsg, st)
      | some opponent =>
          let winner := if mr = .iWon then this_player else opponent
          match mr with
          | .undo => (.notedUndo, st)
          | _ =>
              match report_match_result ef winner (decide (mr = .drawGame)) now st with
              | .ok (s, st1) => (.reported s, st1)
              | .error e => (.reportError e, st)

/-! ## Autocloser (src/lobby_manager.py __lobby_autocloser) -/

/-- The deadline the autocloser recomputes on every wake:
`max(last_interaction + REFRESH_DURATION, start_time + KEEPALIVE_DURATION)`,
where start_time is the clock value captured when the task started. -/
def autocloser_deadline (start_time last_interaction : ℤ) : ℤ :=
  max (last_interaction + REFRESH_DURATION) (start_time + KEEPALIVE_DURATION)

/-- One wake of the autocloser loop body: recompute the remaining sleep
from the deadline; a negative remainder closes (deletes) the lobby,
otherwise the task sleeps that remainder and wakes again. -/
inductive AutocloserStep where
  | close
  | sleep (duration : ℤ)
deriving DecidableEq, Repr

/-- The decision the loop body takes at a wake, given the lobby
last_interaction observed at that moment. -/
def lobby_autocloser_wake (start_time last_interaction now : ℤ) :
    AutocloserStep :=
  let sleep_duration := autocloser_deadline start_time last_interaction - now
  if sleep_duration < 0 then .close else .sleep sleep_duration

/-- The autocloser loop as a trace over wake instants.  `li` gives the
lobby last_interaction as observed at a wake time (it may be advanced
concurrently by other operations while the task sleeps); `eps` gives the
nonnegative overshoot of each asyncio sleep; `fuel` bounds the number of
wakes considered.  The result is the instant at which the lobby is removed
from the table, when that happens within the considered wakes. -/
def autocloser_run (start_time : ℤ) (li : ℤ → ℤ) (eps : ℕ → ℤ) :
    ℕ → ℤ → Option ℤ
  | 0, _ => none
  | fuel + 1, wake =>
      match lobby_autocloser_wake start_time (li wake) wake with
      | .close => some wake
      | .sleep d => autocloser_run start_time li eps fuel (wake + d + eps fuel)

/-! ## Operation sequences -/

/-- One external registry operation, with the clock value at which it is
issued. -/
inductive RegistryOp where
  | create (p : PlayerId) (region platform : String) (now : ℤ)
  | invite (host guest : PlayerId)
  | join (host joiner : PlayerId) (now : ℤ)
  | leave (p : PlayerId) (now : ℤ)
  | report (winner : PlayerId) (draw : Bool) (now : ℤ)

/-- Apply one operation: a raising operation leaves the state as it was
(every raise in the source happens before any state mutation; the one
exception, the AttributeError path of report_match_result, first bumps the
scratch records, a path unreachable through the /result command and
harmless to each invariant below). -/
def applyAction (banned : PlayerId → Bool) (ef : ℤ → ℤ → ℚ → ℤ × ℤ)
    (st : LMState) : RegistryOp → LMState
  | .create p region platform now =>
      match new_lobby banned p region platform now st with
      | .ok x => x.2
      | .error _ => st
  | .invite host guest =>
      match invite_to_lobby host guest st with
      | .ok st1 => st1
      | .error _ => st
  | .join host joiner now =>
      match join_lobby banned host joiner now st with
      | .ok st1 => st1
      | .error _ => st
  | .leave p now =>
      match leave_lobby p now st with
      | .ok st1 => st1
      | .error _ => st
  | .report winner draw now =>
      match report_match_result ef winner draw now st with
      | .ok x => x.2
      | .error _ => st

/-- Run a sequence of operations. -/
def run (banned : PlayerId → Bool) (ef : ℤ → ℤ → ℚ → ℤ × ℤ)
    (acts : List RegistryOp) (st : LMState) : LMState :=
  acts.foldl (applyAction banned ef) st

/-- The state at process start: no lobbies, no Records. -/
def initState : LMState := ⟨[], fun _ _ => none⟩

/-! ## Invariant-level definitions -/

/-- The number of active lobbies whose seated set contains the player. -/
def seatedCount (p : PlayerId) (st : LMState) : Nat :=
  st.lobbies.countP (fun l => decide (p ∈ l.players))

/-- Lobby identifiers are pairwise distinct (dict keys in the source). -/
def idsNodup (st : LMState) : Prop :=
  (st.lobbies.map Lobby.ID).Nodup

/-- Every scratch record of every lobby satisfies
matches_total = W + L + D. -/
def scratchOK (st : LMState) : Prop :=
  ∀ l ∈ st.lobbies, ∀ pr ∈ l.records,
    (pr.2).matches_total = (pr.2).W + (pr.2).L + (pr.2).D

/-- The combined registry invariant carried through operation sequences. -/
def RegistryInv (st : LMState) : Prop :=
  idsNodup st ∧ (∀ p, seatedCount p st ≤ 1) ∧ scratchOK st

/-! ## Concrete states and parameters used in closed evaluations -/

/-- A ban predicate under which nobody is banned. -/
def bannedNobody : PlayerId → Bool := fun _ => false

/-- A concrete stand-in for the rating function in closed registry
evaluations.  Every registry-level property stated below (errors, counters,
timestamps, membership) is independent of the rating values, so the choice
is immaterial; the live ELO_FUNCTION is real-valued and enters the registry
only through the committed elo fields. -/
def ratingZero : ℤ → ℤ → ℚ → ℤ × ℤ := fun _ _ _ => (0, 0)

/-- Host A opens a lobby, invites B, B joins, all at time 0. -/
def demoActs : List RegistryOp :=
  [.create "A" "NA" "PC" 0, .invite "A" "B", .join "A" "B" 0]

/-- The registry state after demoActs. -/
def demoState : LMState := run bannedNobody ratingZero demoActs initState

/-- The state after a first successful result report on demoState at time
30 (the earliest instant past the creation cooldown). -/
def demoStateReported : LMState :=
  ((report_match_result ratingZero "A" false 30 demoState).toOption.map
    Prod.snd).getD demoState

/-- demoActs followed by a first result report at time 30. -/
def C4acts : List RegistryOp := demoActs ++ [.report "A" false 30]

/-- The lobby value seated by demoActs: A and B, both invited, zeroed
scratch records, both timestamps 0. -/
def demoLobby : Lobby :=
  { ID := 1
    region := "NA"
    platform := "PC"
    start_time := 0
    last_interaction := 0
    players := ["A", "B"]
    records := [("A", ⟨0, 0, 0, 0⟩), ("B", ⟨0, 0, 0, 0⟩)]
    invited_players := ["A", "B"] }

/-- A two-seat lobby state in which both participants already have a
persistent Record with zero counters. -/
def twoSeatState : LMState :=
  ⟨[demoLobby],
   fun q k =>
     if (q = "A" ∨ q = "B") ∧ k = ("NA", "PC") then some ⟨1000, 0, 0, 0, 0⟩
     else none⟩

/-- A state in which A is seated alone in their lobby. -/
def soloState : LMState :=
  run bannedNobody ratingZero [.create "A" "NA" "PC" 0] initState

/-- A registry whose 999 lobby identifiers are all taken. -/
def fullTable : LMState :=
  ⟨(List.range' 1 999).map (fun i => new_lobby_entry i "h" "NA" "PC" 0),
   fun _ _ => none⟩

/-! ## Rating engine theorems -/

/-- C8: the rating engine is symmetric — for all ratings a and b, the pair
returned for a beating b equals the component swap of the pair returned for
the mirrored call in which b is the losing first argument. -/
theorem C8_elo_function_symmetric (a b : ℝ) :
    ELO_FUNCTION a b 1 = Prod.swap (ELO_FUNCTION b a 0) := by
  simp only [ELO_FUNCTION, create_elo_function, Prod.swap]
  refine Prod.ext ?_ ?_ <;> norm_num

/-! ## Autocloser theorems -/

/-- C7: whenever the autocloser trace removes the lobby at instant t, the
deadline recomputed at t from the last_interaction observed at t is
strictly in the past; equivalently, the task never removes a lobby whose
recomputed deadline still lies in the future, and it re-evaluates the
deadline afresh at every wake it acts on. -/
theorem C7_autocloser_removes_only_past_deadline
    (start_time : ℤ) (li : ℤ → ℤ) (eps : ℕ → ℤ) (fuel : ℕ) (wake t : ℤ)
    (h : autocloser_run start_time li eps fuel wake = some t) :
    autocloser_deadline start_time (li t) < t := by
  induction fuel generalizing wake with
  | zero => simp [autocloser_run] at h
  | succ n ih =>
      rw [autocloser_run, lobby_autocloser_wake] at h
      by_cases hd : autocloser_deadline start_time (li wake) - wake < 0
      · simp only [hd, if_pos] at h
        cases h
        linarith
      · simp only [hd, if_neg, not_false_iff] at h
        exact ih _ h

/-- Witness for C7 at a concrete trace: a lobby created at time 0, never
interacted with, whose task overslept by one second, is removed at 1801,
one second past its deadline 1800. -/
theorem C7_witness :
    autocloser_run 0 (fun _ => 0) (fun _ => 1) 1 1801 = some 1801 ∧
    autocloser_deadline 0 0 < 1801 := by
  have h : autocloser_run 0 (fun _ => 0) (fun _ => 1) 1 1801 = some 1801 := by
    simp [autocloser_run, lobby_autocloser_wake, autocloser_deadline,
      REFRESH_DURATION, KEEPALIVE_DURATION]
  exact ⟨h, C7_autocloser_removes_only_past_deadline 0 (fun _ => 0)
    (fun _ => 1) 1 1801 1801 h⟩

/-! ## Cooldown behaviour of result reporting -/

/-- C1: the code behaviour at the failing input.  On a lobby whose
last_interaction is 0 (host A opened it and guest B joined at time 0), a
first report at time 30 succeeds, yet it leaves last_interaction at 0 —
report_match_result never refreshes it — and therefore a second report one
second later also succeeds instead of failing with a cooldown carrying a
positive remaining time. -/
theorem C1_second_immediate_report_not_gated :
    (report_match_result ratingZero "A" false 30 demoState).isOk = true ∧
    (find_lobby "A" demoStateReported).map Lobby.last_interaction = some 0 ∧
    (report_match_result ratingZero "A" false 31 demoStateReported).isOk = true :=
  ⟨by decide, by decide, by decide⟩

/-! ## Counter updates of result reporting -/

/-- C2 counterexample: at a concrete two-seat lobby past cooldown, with
both persistent Records present and zeroed, a successful decisive report by
winner A leaves A's persistent Record at matches_total 1 with W still 0 —
the persistent W counter is not incremented, contrary to the claim. -/
theorem C2_persistent_w_not_incremented :
    (report_match_result ratingZero "A" false 30 twoSeatState).toOption.map
      (fun x => x.2.store "A" ("NA", "PC")) =
    some (some ⟨1000, 1, 0, 0, 0⟩) := by decide

/-! ## Scratch-record invariant counterexample -/

/-- C4 counterexample: after the concrete sequence create, invite, join,
report (a decisive result), the winner A has a persistent Record with
matches_total 1 but W + L + D still 0, so the matches_total = W + L + D
invariant fails for persistent Records. -/
theorem C4_persistent_invariant_fails :
    ((run bannedNobody ratingZero C4acts initState).store "A" ("NA", "PC")).map
      (fun r => (r.matches_total, r.W + r.L + r.D)) = some (1, 0) := by decide

/-! ## Empty-lobby gating of the /result command -/

/-- C3: when the reporter is seated in a lobby with fewer than two seated
participants, the /result command answers with the empty-lobby message and
returns the state unchanged, for every choice of result and every rating
function: no rating or counter state is mutated. -/
theorem C3_result_fails_empty_lobby (ef : ℤ → ℤ → ℚ → ℤ × ℤ)
    (p : PlayerId) (mr : MatchResultChoice) (now : ℤ) (st : LMState)
    (l : Lobby)
    (hfind : find_lobby p st = some l)
    (hlen : l.players.length < 2) :
    result_command ef p mr now st = (.emptyLobbyMsg, st) := by
  have hmem : p ∈ l.players := by
    have h1 := List.find?_some hfind
    simpa using h1
  have hpl : l.players = [p] := by
    rcases hq : l.players with _ | ⟨x, _ | ⟨y, t⟩⟩
    · rw [hq] at hmem
      cases hmem
    · rw [hq] at hmem
      rcases List.mem_singleton.mp hmem with rfl
      rfl
    · rw [hq] at hlen
      simp at hlen
      omega
  simp [result_command, hfind, hpl, List.find?]

/-- Witness for C3: A seated alone reports a win; the command answers with
the empty-lobby message and the state is unchanged. -/
theorem C3_witness :
    find_lobby "A" soloState = some (new_lobby_entry 1 "A" "NA" "PC" 0) ∧
    result_command ratingZero "A" .iWon 30 soloState =
      (.emptyLobbyMsg, soloState) :=
  ⟨by decide,
   C3_result_fails_empty_lobby ratingZero "A" .iWon 30 soloState
     (new_lobby_entry 1 "A" "NA" "PC" 0) (by decide) (by decide)⟩

/-! ## Identifier exhaustion in new_lobby -/

/-- C9: when every identifier from 1 to 999 is in use, new_lobby for a
non-banned player seated nowhere raises no error and creates no lobby: the
scan falls through and the operation returns the none value, the lobby
table unchanged, with only the lazy Record touch of the creator applied. -/
theorem C9_new_lobby_exhausted (banned : PlayerId → Bool) (p : PlayerId)
    (region platform : String) (now : ℤ) (st : LMState)
    (hb : banned p = false)
    (hseat : st.lobbies.any (fun l => decide (p ∈ l.players)) = false)
    (hfull : ∀ id, 1 ≤ id → id ≤ 999 →
      st.lobbies.any (fun l => decide (l.ID = id)) = true) :
    new_lobby banned p region platform now st =
      .ok (none, ⟨st.lobbies, (get_record p (region, platform) st.store).2⟩) := by
  have hnone : (List.range' 1 999).find?
      (fun id => !(st.lobbies.any (fun l => decide (l.ID = id)))) = none := by
    rw [List.find?_eq_none]
    intro x hx
    rw [List.mem_range'_1] at hx
    simp [hfull x hx.1 (by omega)]
  unfold new_lobby
  rw [hnone]
  simp [hb, hseat]

/-- Witness for C9: a table holding lobbies 1 through 999. -/
theorem C9_witness :
    bannedNobody "p" = false ∧
    new_lobby bannedNobody "p" "NA" "PC" 0 fullTable =
      .ok (none,
        ⟨fullTable.lobbies, (get_record "p" ("NA", "PC") fullTable.store).2⟩) := by
  refine ⟨rfl, C9_new_lobby_exhausted bannedNobody "p" "NA" "PC" 0 fullTable rfl ?_ ?_⟩
  · rw [List.any_eq_false]
    intro l hl
    rcases List.mem_map.mp hl with ⟨i, _, rfl⟩
    simp [new_lobby_entry]
  · intro id h1 h2
    rw [List.any_eq_true]
    exact ⟨new_lobby_entry id "h" "NA" "PC" 0,
      List.mem_map.mpr ⟨id, List.mem_range'_1.mpr ⟨h1, by omega⟩, rfl⟩,
      by simp [new_lobby_entry]⟩

lemma mem_replace_lobby (L : List Lobby) (id : Nat) (l1 e : Lobby)
    (he : e ∈ replace_lobby L id l1) : e = l1 ∨ e ∈ L := by
  unfold replace_lobby at he
  rcases List.mem_map.mp he with ⟨x, hx, rfl⟩
  by_cases h : x.ID = id
  · simp only [h, if_pos rfl]
    exact Or.inl rfl
  · rw [if_neg h]
    exact Or.inr hx

lemma replace_lobby_map_id (L : List Lobby) (id : Nat) (l1 : Lobby)
    (h : l1.ID = id) :
    (replace_lobby L id l1).map Lobby.ID = L.map Lobby.ID := by
  unfold replace_lobby
  rw [List.map_map]
  apply List.map_congr_left
  intro e _
  by_cases he : e.ID = id
  · simp [he, h]
  · simp [he]

lemma find?_replace_lobby (p : PlayerId) (l l1 : Lobby)
    (hid : l1.ID = l.ID) (hmem : (p ∈ l1.players) ↔ (p ∈ l.players)) :
    ∀ (L : List Lobby), (L.map Lobby.ID).Nodup →
      L.find? (fun e => decide (p ∈ e.players)) = some l →
      (replace_lobby L l.ID l1).find? (fun e => decide (p ∈ e.players)) = some l1 := by
  intro L
  induction L with
  | nil => intro _ h; simp at h
  | cons x xs ih =>
      intro hnd hf
      rw [List.map_cons, List.nodup_cons] at hnd
      by_cases hx : p ∈ x.players
      · have hxl : x = l := by
          have := List.find?_cons_of_pos (p := fun e => decide (p ∈ e.players))
            xs (decide_eq_true hx)
          rw [this] at hf
          exact Option.some_injective _ hf
        subst hxl
        have : replace_lobby (x :: xs) x.ID l1 =
            l1 :: replace_lobby xs x.ID l1 := by
          unfold replace_lobby
          simp
        rw [this]
        exact List.find?_cons_of_pos _ (decide_eq_true (hmem.mpr hx))
      · have hf2 : xs.find? (fun e => decide (p ∈ e.players)) = some l := by
          have := List.find?_cons_of_neg (p := fun e => decide (p ∈ e.players))
            xs (by simpa using hx)
          rw [this] at hf
          exact hf
        have hlmem : l ∈ xs := List.mem_of_find?_eq_some hf2
        have hxid : ¬ x.ID = l.ID := by
          intro h
          exact hnd.1 (h ▸ List.mem_map_of_mem Lobby.ID hlmem)
        have : replace_lobby (x :: xs) l.ID l1 =
            x :: replace_lobby xs l.ID l1 := by
          unfold replace_lobby
          simp [hxid]
        rw [this]
        rw [List.find?_cons_of_neg _ (by simpa using hx)]
        exact ih hnd.2 hf2

lemma find_lobby_replace (p : PlayerId) (st : LMState) (s : Store)
    (l l1 : Lobby) (hnd : idsNodup st)
    (hfind : find_lobby p st = some l)
    (hid : l1.ID = l.ID) (hmem : (p ∈ l1.players) ↔ (p ∈ l.players)) :
    find_lobby p ⟨replace_lobby st.lobbies l.ID l1, s⟩ = some l1 :=
  find?_replace_lobby p l l1 hid hmem st.lobbies hnd hfind

/-- C6: with a host seated alone and a non-banned guest seated nowhere who
was never invited, join fails with the Forbidden (permission) error; after
invite of that guest the identical join call succeeds, and the host lobby
then seats exactly 2 participants. -/
theorem C6_join_requires_invitation (banned : PlayerId → Bool)
    (host guest : PlayerId) (now now2 : ℤ) (st : LMState) (l : Lobby)
    (hnd : idsNodup st)
    (hfind : find_lobby host st = some l)
    (hpl : l.players = [host])
    (hb : banned guest = false)
    (hseat : ∀ l2 ∈ st.lobbies, guest ∉ l2.players)
    (hinv : guest ∉ l.invited_players) :
    join_lobby banned host guest now st =
      .error (.permission "You have not been invited to this lobby.") ∧
    ∃ st1, invite_to_lobby host guest st = .ok st1 ∧
      ∃ st2, join_lobby banned host guest now2 st1 = .ok st2 ∧
        (find_lobby host st2).map (fun e => e.players.length) = some 2 := by
  have hlmem : l ∈ st.lobbies := List.mem_of_find?_eq_some hfind
  have hg : guest ∉ l.players := hseat l hlmem
  have hgh : guest ≠ host := by
    intro h
    rw [hpl, h] at hg
    exact hg (List.mem_singleton.mpr rfl)
  have hany : st.lobbies.any
      (fun l2 => decide (guest ∈ l2.players) && decide (l2 ≠ l)) = false := by
    rw [List.any_eq_false]
    intro e he
    simp [hseat e he]
  have hfull : ¬ 1 < l.players.length := by
    rw [hpl]
    simp
  constructor
  · unfold join_lobby
    rw [hb, hfind]
    simp only [Bool.false_eq_true, if_false]
    rw [if_neg hg, hany]
    simp only [Bool.false_eq_true, if_false]
    rw [if_neg hfull, if_pos hinv]
  · have hinvite : invite_to_lobby host guest st =
        .ok ⟨replace_lobby st.lobbies l.ID
          { l with invited_players := l.invited_players ++ [guest] }, st.store⟩ := by
      unfold invite_to_lobby
      rw [hfind]
      simp only []
      rw [if_neg hinv]
    refine ⟨_, hinvite, ?_⟩
    set linv : Lobby :=
      { l with invited_players := l.invited_players ++ [guest] } with hlinv
    have hfind1 : find_lobby host
        ⟨replace_lobby st.lobbies l.ID linv, st.store⟩ = some linv :=
      find_lobby_replace host st st.store l linv hnd hfind rfl Iff.rfl
    have hnd1 : ((replace_lobby st.lobbies l.ID linv).map Lobby.ID).Nodup := by
      rw [replace_lobby_map_id st.lobbies l.ID linv rfl]
      exact hnd
    have hg1 : guest ∉ linv.players := hg
    have hany1 : (replace_lobby st.lobbies l.ID linv).any
        (fun l2 => decide (guest ∈ l2.players) && decide (l2 ≠ linv)) = false := by
      rw [List.any_eq_false]
      intro e he
      rcases mem_replace_lobby st.lobbies l.ID linv e he with rfl | hmem
      · simp [hg1]
      · simp [hseat e hmem]
    have hinv1 : ¬ guest ∉ linv.invited_players := by
      intro h
      exact h (List.mem_append.mpr (Or.inr (List.mem_singleton.mpr rfl)))
    have hjoin : join_lobby banned host guest now2
        ⟨replace_lobby st.lobbies l.ID linv, st.store⟩ =
        .ok ⟨replace_lobby (replace_lobby st.lobbies l.ID linv) linv.ID
          (join_update linv guest now2), st.store⟩ := by
      unfold join_lobby
      rw [hb, hfind1]
      simp only [Bool.false_eq_true, if_false]
      rw [if_neg hg1, hany1]
      simp only [Bool.false_eq_true, if_false]
      rw [if_neg hfull, if_neg hinv1]
    refine ⟨_, hjoin, ?_⟩
    have hmem2 : (host ∈ (join_update linv guest now2).players) ↔
        (host ∈ linv.players) := by
      simp only [join_update, update_lobby]
      rw [List.mem_append]
      constructor
      · rintro (h | h)
        · exact h
        · exact absurd (List.mem_singleton.mp h) (Ne.symm hgh)
      · exact Or.inl
    have hfind2 : find_lobby host
        ⟨replace_lobby (replace_lobby st.lobbies l.ID linv) linv.ID
          (join_update linv guest now2), st.store⟩ =
        some (join_update linv guest now2) :=
      find_lobby_replace host ⟨replace_lobby st.lobbies l.ID linv, st.store⟩
        st.store linv (join_update linv guest now2) hnd1 hfind1 rfl hmem2
    rw [hfind2]
    simp [join_update, update_lobby, hpl]

/-- C10: leave removes the participant only from the seated set and the
scratch-record table — the invited set of the lobby is untouched — and
therefore a participant who left a still-existing lobby can join back into
it without a new invite, provided the lobby is not full and they are not
banned or seated elsewhere. -/
theorem C10_leave_keeps_invitation (banned : PlayerId → Bool)
    (p h : PlayerId) (now now2 : ℤ) (st : LMState) (l : Lobby)
    (hnd : idsNodup st)
    (hfind : find_lobby p st = some l)
    (hpnd : l.players.Nodup)
    (hinv : p ∈ l.invited_players)
    (hb : banned p = false)
    (hh : find_lobby h
        ⟨replace_lobby st.lobbies l.ID (leave_update l p now), st.store⟩ =
      some (leave_update l p now))
    (hfull : ¬ 1 < (leave_update l p now).players.length)
    (hnoseat : ∀ l2 ∈ replace_lobby st.lobbies l.ID (leave_update l p now),
      p ∉ l2.players) :
    leave_lobby p now st =
      .ok ⟨replace_lobby st.lobbies l.ID (leave_update l p now), st.store⟩ ∧
    (leave_update l p now).invited_players = l.invited_players ∧
    ∃ st2, join_lobby banned h p now2
        ⟨replace_lobby st.lobbies l.ID (leave_update l p now), st.store⟩ =
        .ok st2 ∧
      (find_lobby h st2).map (fun e => decide (p ∈ e.players)) = some true := by
  have hleave : leave_lobby p now st =
      .ok ⟨replace_lobby st.lobbies l.ID (leave_update l p now), st.store⟩ := by
    unfold leave_lobby
    rw [hfind]
  refine ⟨hleave, rfl, ?_⟩
  have hpg : p ∉ (leave_update l p now).players := by
    simp only [leave_update, update_lobby]
    exact hpnd.not_mem_erase
  have hany1 : (replace_lobby st.lobbies l.ID (leave_update l p now)).any
      (fun l2 => decide (p ∈ l2.players) &&
        decide (l2 ≠ leave_update l p now)) = false := by
    rw [List.any_eq_false]
    intro e he
    simp [hnoseat e he]
  have hinv1 : ¬ p ∉ (leave_update l p now).invited_players := by
    intro hq
    exact hq hinv
  have hnd1 : idsNodup
      ⟨replace_lobby st.lobbies l.ID (leave_update l p now), st.store⟩ := by
    show ((replace_lobby st.lobbies l.ID (leave_update l p now)).map Lobby.ID).Nodup
    rw [replace_lobby_map_id st.lobbies l.ID (leave_update l p now) rfl]
    exact hnd
  have hjoin : join_lobby banned h p now2
      ⟨replace_lobby st.lobbies l.ID (leave_update l p now), st.store⟩ =
      .ok ⟨replace_lobby (replace_lobby st.lobbies l.ID (leave_update l p now))
        (leave_update l p now).ID
        (join_update (leave_update l p now) p now2), st.store⟩ := by
    unfold join_lobby
    rw [hb, hh]
    simp only [Bool.false_eq_true, if_false]
    rw [if_neg hpg, hany1]
    simp only [Bool.false_eq_true, if_false]
    rw [if_neg hfull, if_neg hinv1]
  refine ⟨_, hjoin, ?_⟩
  have hhp : h ≠ p := by
    intro hq
    have hhmem := List.find?_some hh
    rw [hq] at hhmem
    exact hpg (by simpa using hhmem)
  have hmem2 : (h ∈ (join_update (leave_update l p now) p now2).players) ↔
      (h ∈ (leave_update l p now).players) := by
    simp only [join_update, update_lobby]
    rw [List.mem_append]
    constructor
    · rintro (hq | hq)
      · exact hq
      · exact absurd (List.mem_singleton.mp hq) hhp
    · exact Or.inl
  have hfind2 := find_lobby_replace h
    ⟨replace_lobby st.lobbies l.ID (leave_update l p now), st.store⟩ st.store
    (leave_update l p now) (join_update (leave_update l p now) p now2)
    hnd1 hh rfl hmem2
  rw [hfind2]
  simp [join_update, update_lobby]

lemma countP_replace (L : List Lobby) (id : Nat) (l1 : Lobby) (q : Lobby → Bool) :
    (replace_lobby L id l1).countP q =
      L.countP (fun e => if e.ID = id then q l1 else q e) := by
  unfold replace_lobby
  rw [List.countP_map]
  apply List.countP_congr
  intro e _
  by_cases h : e.ID = id <;> simp [Function.comp, h]

lemma seated_countP_congr (p : PlayerId) (L : List Lobby) (l l1 : Lobby)
    (hnd : (L.map Lobby.ID).Nodup) (hl : l ∈ L)
    (hq : (p ∈ l1.players) ↔ (p ∈ l.players)) :
    (replace_lobby L l.ID l1).countP (fun e => decide (p ∈ e.players)) =
      L.countP (fun e => decide (p ∈ e.players)) := by
  rw [countP_replace]
  apply List.countP_congr
  intro e he
  by_cases h : e.ID = l.ID
  · have he2 : e = l := List.inj_on_of_nodup_map hnd he hl h
    subst he2
    simp [h, hq]
  · simp [h]

lemma countP_id_eq_one (L : List Lobby) (l : Lobby)
    (hnd : (L.map Lobby.ID).Nodup) (hl : l ∈ L) :
    L.countP (fun e => decide (e.ID = l.ID)) = 1 := by
  have h3 : (L.map Lobby.ID).count l.ID = 1 :=
    List.count_eq_one_of_mem hnd (List.mem_map_of_mem Lobby.ID hl)
  rw [List.count_eq_countP, List.countP_map] at h3
  rw [← h3]
  apply List.countP_congr
  intro e _
  simp [Function.comp]

lemma countP_replace_new_mem (p : PlayerId) (L : List Lobby) (l l1 : Lobby)
    (hnd : (L.map Lobby.ID).Nodup) (hl : l ∈ L)
    (hp1 : p ∈ l1.players)
    (hnone : ∀ e ∈ L, p ∉ e.players) :
    (replace_lobby L l.ID l1).countP (fun e => decide (p ∈ e.players)) = 1 := by
  rw [countP_replace]
  have h1 : L.countP
      (fun e => if e.ID = l.ID then decide (p ∈ l1.players)
        else decide (p ∈ e.players)) =
      L.countP (fun e => decide (e.ID = l.ID)) := by
    apply List.countP_congr
    intro e he
    by_cases h : e.ID = l.ID
    · simp [h, hp1]
    · simp [h, hnone e he]
  rw [h1]
  exact countP_id_eq_one L l hnd hl

lemma countP_replace_le (p : PlayerId) (L : List Lobby) (l l1 : Lobby)
    (hnd : (L.map Lobby.ID).Nodup) (hl : l ∈ L)
    (himp : p ∈ l1.players → p ∈ l.players) :
    (replace_lobby L l.ID l1).countP (fun e => decide (p ∈ e.players)) ≤
      L.countP (fun e => decide (p ∈ e.players)) := by
  rw [countP_replace]
  apply List.countP_mono_left
  intro e he h
  by_cases hid : e.ID = l.ID
  · rw [if_pos hid] at h
    have he2 : e = l := List.inj_on_of_nodup_map hnd he hl hid
    subst he2
    simp only [decide_eq_true_eq] at h ⊢
    exact himp h
  · rw [if_neg hid] at h
    exact h

lemma new_lobby_ok (banned : PlayerId → Bool) (p : PlayerId)
    (region platform : String) (now : ℤ) (st : LMState)
    (res : Option Lobby × LMState)
    (hok : new_lobby banned p region platform now st = .ok res) :
    res.2.lobbies = st.lobbies ∨
    ∃ id, st.lobbies.any (fun l => decide (p ∈ l.players)) = false ∧
      st.lobbies.any (fun l => decide (l.ID = id)) = false ∧
      res.2.lobbies = st.lobbies ++ [new_lobby_entry id p region platform now] := by
  unfold new_lobby at hok
  split at hok
  · exact Except.noConfusion hok
  · split at hok
    · exact Except.noConfusion hok
    · rename_i h1 h2
      split at hok
      · rename_i id heq
        injection hok with hok1
        right
        refine ⟨id, by simpa using h2, ?_, by rw [← hok1]⟩
        have := List.find?_some heq
        simpa using this
      · injection hok with hok1
        left
        rw [← hok1]

lemma invite_ok (host guest : PlayerId) (st st1 : LMState)
    (hok : invite_to_lobby host guest st = .ok st1) :
    ∃ l l1, find_lobby host st = some l ∧ l1.ID = l.ID ∧
      l1.players = l.players ∧ l1.records = l.records ∧
      st1 = ⟨replace_lobby st.lobbies l.ID l1, st.store⟩ := by
  unfold invite_to_lobby at hok
  split at hok
  · exact Except.noConfusion hok
  · rename_i l heq
    injection hok with hok1
    exact ⟨l,
      { l with invited_players :=
          if guest ∈ l.invited_players then l.invited_players
          else l.invited_players ++ [guest] },
      heq, rfl, rfl, rfl, hok1.symm⟩

lemma join_ok (banned : PlayerId → Bool) (host joiner : PlayerId) (now : ℤ)
    (st st1 : LMState)
    (hok : join_lobby banned host joiner now st = .ok st1) :
    ∃ l, find_lobby host st = some l ∧ joiner ∉ l.players ∧
      st.lobbies.any
        (fun l2 => decide (joiner ∈ l2.players) && decide (l2 ≠ l)) = false ∧
      st1 = ⟨replace_lobby st.lobbies l.ID (join_update l joiner now),
        st.store⟩ := by
  unfold join_lobby at hok
  split at hok
  · exact Except.noConfusion hok
  · split at hok
    · exact Except.noConfusion hok
    · rename_i l heq
      split at hok
      · exact Except.noConfusion hok
      · split at hok
        · exact Except.noConfusion hok
        · split at hok
          · exact Except.noConfusion hok
          · split at hok
            · exact Except.noConfusion hok
            · rename_i hmem hany _ _
              injection hok with hok1
              exact ⟨l, heq, hmem, by simpa using hany, hok1.symm⟩

lemma leave_ok (p : PlayerId) (now : ℤ) (st st1 : LMState)
    (hok : leave_lobby p now st = .ok st1) :
    ∃ l, find_lobby p st = some l ∧
      st1 = ⟨replace_lobby st.lobbies l.ID (leave_update l p now),
        st.store⟩ := by
  unfold leave_lobby at hok
  split at hok
  · exact Except.noConfusion hok
  · rename_i l heq
    injection hok with hok1
    exact ⟨l, heq, hok1.symm⟩

lemma report_ok (ef : ℤ → ℤ → ℚ → ℤ × ℤ) (w : PlayerId) (d : Bool)
    (now : ℤ) (st : LMState) (x : Summary × LMState)
    (hok : report_match_result ef w d now st = .ok x) :
    ∃ l s, find_lobby w st = some l ∧
      x.2 = ⟨replace_lobby st.lobbies l.ID
        { l with records := bump_records w d l.records }, s⟩ := by
  unfold report_match_result at hok
  split at hok
  · exact Except.noConfusion hok
  · rename_i l heq
    dsimp only at hok
    split at hok
    · exact Except.noConfusion hok
    · split at hok
      · rename_i p1 p2
        injection hok with hok1
        exact ⟨l, _, heq, by rw [← hok1]⟩
      · exact Except.noConfusion hok

lemma bump_records_counts (w : PlayerId) (d : Bool)
    (records : List (PlayerId × LobbyRecord))
    (h : ∀ pr ∈ records,
      pr.2.matches_total = pr.2.W + pr.2.L + pr.2.D) :
    ∀ pr ∈ bump_records w d records,
      pr.2.matches_total = pr.2.W + pr.2.L + pr.2.D := by
  intro pr hpr
  unfold bump_records at hpr
  cases d with
  | false =>
      simp only [Bool.not_false, if_pos rfl] at hpr
      rcases List.mem_map.mp hpr with ⟨x, hx, rfl⟩
      have hxc := h x hx
      by_cases hxw : x.1 = w <;> simp [hxw, hxc] <;> omega
  | true =>
      simp only [Bool.not_true, Bool.false_eq_true, if_false] at hpr
      rcases List.mem_map.mp hpr with ⟨x, hx, rfl⟩
      have hxc := h x hx
      simp [hxc]
      omega

lemma registryInv_of_lobbies_eq (st st1 : LMState)
    (h : st1.lobbies = st.lobbies) (hi : RegistryInv st) : RegistryInv st1 := by
  rcases hi with ⟨h1, h2, h3⟩
  refine ⟨?_, ?_, ?_⟩
  · show (st1.lobbies.map Lobby.ID).Nodup
    rw [h]
    exact h1
  · intro p
    show st1.lobbies.countP (fun l => decide (p ∈ l.players)) ≤ 1
    rw [h]
    exact h2 p
  · intro l hl
    rw [h] at hl
    exact h3 l hl

lemma replace_inv (st : LMState) (s : Store) (l l1 : Lobby)
    (hl : l ∈ st.lobbies) (hid : l1.ID = l.ID)
    (hpl : ∀ q : PlayerId, (q ∈ l1.players) ↔ (q ∈ l.players))
    (hrec : ∀ pr ∈ l1.records,
      pr.2.matches_total = pr.2.W + pr.2.L + pr.2.D)
    (hi : RegistryInv st) :
    RegistryInv ⟨replace_lobby st.lobbies l.ID l1, s⟩ := by
  rcases hi with ⟨h1, h2, h3⟩
  refine ⟨?_, ?_, ?_⟩
  · show ((replace_lobby st.lobbies l.ID l1).map Lobby.ID).Nodup
    rw [replace_lobby_map_id st.lobbies l.ID l1 hid]
    exact h1
  · intro q
    show (replace_lobby st.lobbies l.ID l1).countP
      (fun e => decide (q ∈ e.players)) ≤ 1
    rw [seated_countP_congr q st.lobbies l l1 h1 hl (hpl q)]
    exact h2 q
  · intro e he pr hpr
    rcases mem_replace_lobby st.lobbies l.ID l1 e he with rfl | hmem
    · exact hrec pr hpr
    · exact h3 e hmem pr hpr

lemma applyAction_inv (banned : PlayerId → Bool) (ef : ℤ → ℤ → ℚ → ℤ × ℤ)
    (st : LMState) (a : RegistryOp) (hi : RegistryInv st) :
    RegistryInv (applyAction banned ef st a) := by
  cases a with
  | create p region platform now =>
      rcases hok : new_lobby banned p region platform now st with e | res
      · simpa [applyAction, hok] using hi
      · simp only [applyAction, hok]
        rcases new_lobby_ok banned p region platform now st res hok with
          hsame | ⟨id, hfree, hfresh, happ⟩
        · exact registryInv_of_lobbies_eq st res.2 hsame hi
        · rcases hi with ⟨h1, h2, h3⟩
          refine ⟨?_, ?_, ?_⟩
          · show (res.2.lobbies.map Lobby.ID).Nodup
            rw [happ, List.map_append]
            rw [List.nodup_append]
            refine ⟨h1, List.nodup_singleton _, ?_⟩
            rw [List.map_singleton, List.disjoint_singleton]
            intro hmem
            rcases List.mem_map.mp hmem with ⟨e, he, hide⟩
            have := List.any_eq_false.mp hfresh e he
            simp [new_lobby_entry] at hide
            simp [hide] at this
          · intro q
            show res.2.lobbies.countP (fun e => decide (q ∈ e.players)) ≤ 1
            rw [happ, List.countP_append]
            by_cases hq : q = p
            · subst hq
              have hz : st.lobbies.countP
                  (fun e => decide (q ∈ e.players)) = 0 := by
                rw [List.countP_eq_zero]
                intro e he
                have := List.any_eq_false.mp hfree e he
                simpa using this
              rw [hz]
              simp [new_lobby_entry]
            · have hone : List.countP (fun e => decide (q ∈ e.players))
                  [new_lobby_entry id p region platform now] = 0 := by
                simp [new_lobby_entry, hq]
              rw [hone]
              simpa using h2 q
          · intro e he pr hpr
            rw [happ] at he
            rcases List.mem_append.mp he with hmem | hmem
            · exact h3 e hmem pr hpr
            · rcases List.mem_singleton.mp hmem with rfl
              simp only [new_lobby_entry] at hpr
              rcases List.mem_singleton.mp hpr with rfl
              rfl
  | invite host guest =>
      rcases hok : invite_to_lobby host guest st with e | st1
      · simpa [applyAction, hok] using hi
      · simp only [applyAction, hok]
        rcases invite_ok host guest st st1 hok with
          ⟨l, l1, hfind, hid, hpl, hrec, hst⟩
        rw [hst]
        refine replace_inv st st.store l l1
          (List.mem_of_find?_eq_some hfind) hid
          (fun q => by rw [hpl]) ?_ hi
        intro pr hpr
        rw [hrec] at hpr
        exact hi.2.2 l (List.mem_of_find?_eq_some hfind) pr hpr
  | join host joiner now =>
      rcases hok : join_lobby banned host joiner now st with e | st1
      · simpa [applyAction, hok] using hi
      · simp only [applyAction, hok]
        rcases join_ok banned host joiner now st st1 hok with
          ⟨l, hfind, hmem, hany, hst⟩
        rw [hst]
        have hl : l ∈ st.lobbies := List.mem_of_find?_eq_some hfind
        rcases hi with ⟨h1, h2, h3⟩
        refine ⟨?_, ?_, ?_⟩
        · show ((replace_lobby st.lobbies l.ID
            (join_update l joiner now)).map Lobby.ID).Nodup
          rw [replace_lobby_map_id st.lobbies l.ID (join_update l joiner now) rfl]
          exact h1
        · intro q
          show (replace_lobby st.lobbies l.ID
            (join_update l joiner now)).countP
              (fun e => decide (q ∈ e.players)) ≤ 1
          by_cases hq : q = joiner
          · rw [hq]
            have hnone : ∀ e ∈ st.lobbies, joiner ∉ e.players := by
              intro e he hqe
              by_cases hel : e = l
              · rw [hel] at hqe
                exact hmem hqe
              · have := List.any_eq_false.mp hany e he
                simp [hqe, hel] at this
            have hp1 : joiner ∈ (join_update l joiner now).players := by
              simp [join_update, update_lobby]
            rw [countP_replace_new_mem joiner st.lobbies l
              (join_update l joiner now) h1 hl hp1 hnone]
          · rw [seated_countP_congr q st.lobbies l
              (join_update l joiner now) h1 hl ?_]
            · exact h2 q
            · simp only [join_update, update_lobby]
              rw [List.mem_append]
              constructor
              · rintro (h | h)
                · exact h
                · exact absurd (List.mem_singleton.mp h) hq
              · exact Or.inl
        · intro e he pr hpr
          rcases mem_replace_lobby st.lobbies l.ID
            (join_update l joiner now) e he with rfl | hmem2
          · simp only [join_update, update_lobby] at hpr
            rcases List.mem_append.mp hpr with hpr2 | hpr2
            · exact h3 l hl pr hpr2
            · rcases List.mem_singleton.mp hpr2 with rfl
              rfl
          · exact h3 e hmem2 pr hpr
  | leave p now =>
      rcases hok : leave_lobby p now st with e | st1
      · simpa [applyAction, hok] using hi
      · simp only [applyAction, hok]
        rcases leave_ok p now st st1 hok with ⟨l, hfind, hst⟩
        rw [hst]
        have hl : l ∈ st.lobbies := List.mem_of_find?_eq_some hfind
        rcases hi with ⟨h1, h2, h3⟩
        refine ⟨?_, ?_, ?_⟩
        · show ((replace_lobby st.lobbies l.ID
            (leave_update l p now)).map Lobby.ID).Nodup
          rw [replace_lobby_map_id st.lobbies l.ID (leave_update l p now) rfl]
          exact h1
        · intro q
          show (replace_lobby st.lobbies l.ID
            (leave_update l p now)).countP
              (fun e => decide (q ∈ e.players)) ≤ 1
          by_cases hq : q = p
          · rw [hq]
            refine le_trans (countP_replace_le p st.lobbies l
              (leave_update l p now) h1 hl ?_) (h2 p)
            intro hqe
            simp only [leave_update, update_lobby] at hqe
            exact List.mem_of_mem_erase hqe
          · rw [seated_countP_congr q st.lobbies l
              (leave_update l p now) h1 hl ?_]
            · exact h2 q
            · simp only [leave_update, update_lobby]
              exact List.mem_erase_of_ne hq
        · intro e he pr hpr
          rcases mem_replace_lobby st.lobbies l.ID
            (leave_update l p now) e he with rfl | hmem2
          · simp only [leave_update, update_lobby] at hpr
            exact h3 l hl pr (List.mem_filter.mp hpr).1
          · exact h3 e hmem2 pr hpr
  | report w d now =>
      rcases hok : report_match_result ef w d now st with e | x
      · simpa [applyAction, hok] using hi
      · simp only [applyAction, hok]
        rcases report_ok ef w d now st x hok with ⟨l, s, hfind, hst⟩
        rw [hst]
        have hl : l ∈ st.lobbies := List.mem_of_find?_eq_some hfind
        refine replace_inv st s l _ hl rfl (fun q => Iff.rfl) ?_ hi
        exact bump_records_counts w d l.records (hi.2.2 l hl)

lemma initState_inv : RegistryInv initState := by
  refine ⟨?_, ?_, ?_⟩
  · show ((initState.lobbies).map Lobby.ID).Nodup
    simp [initState]
  · intro p
    show (initState.lobbies).countP (fun l => decide (p ∈ l.players)) ≤ 1
    simp [initState]
  · intro l hl
    simp [initState] at hl

lemma run_inv (banned : PlayerId → Bool) (ef : ℤ → ℤ → ℚ → ℤ × ℤ) :
    ∀ (acts : List RegistryOp) (st : LMState),
      RegistryInv st → RegistryInv (run banned ef acts st) := by
  intro acts
  induction acts with
  | nil => intro st h; exact h
  | cons a as ih =>
      intro st h
      show RegistryInv (List.foldl (applyAction banned ef) st (a :: as))
      rw [List.foldl_cons]
      exact ih _ (applyAction_inv banned ef st a h)

/-- C5: after any sequence of registry operations from the initial state
(create, invite, join, leave, report at arbitrary instants, under any ban
predicate and rating function), every participant is seated in at most one
active lobby of the registry. -/
theorem C5_at_most_one_active_lobby (banned : PlayerId → Bool)
    (ef : ℤ → ℤ → ℚ → ℤ × ℤ) (acts : List RegistryOp) (p : PlayerId) :
    seatedCount p (run banned ef acts initState) ≤ 1 :=
  (run_inv banned ef acts initState initState_inv).2.1 p

/-- C4 (amended): after any sequence of registry operations from the
initial state, every lobby-scratch record satisfies
matches_total = W + L + D.  (The persistent Records do not satisfy the
invariant once a result is reported; see the counterexample.) -/
theorem C4_scratch_invariant (banned : PlayerId → Bool)
    (ef : ℤ → ℤ → ℚ → ℤ × ℤ) (acts : List RegistryOp) :
    scratchOK (run banned ef acts initState) :=
  (run_inv banned ef acts initState initState_inv).2.2

/-! ## Counter updates of a successful report (C2) -/

/-- get_elo on a present Record reads its rating and leaves the store
unchanged. -/
lemma get_elo_present (p : PlayerId) (key : String × String) (store : Store)
    (pr : PlayerRecord) (hp : store p key = some pr) :
    get_elo p key store = (pr.elo, store) := by
  simp [get_elo, get_record, hp]

/-- In a decisive result reported by the first of two record keys, p1 is
the winner and p2 the other key. -/
lemma report_p1p2_left (a b : PlayerId) (ra rb : LobbyRecord) (hba : b ≠ a) :
    report_p1p2 a false [(a, ra), (b, rb)] = (some a, some b) := by
  simp [report_p1p2, hba]

/-- In a decisive result reported by the second of two record keys, p1 is
the winner and p2 the other key. -/
lemma report_p1p2_right (a b : PlayerId) (ra rb : LobbyRecord) (hab : a ≠ b) :
    report_p1p2 b false [(a, ra), (b, rb)] = (some b, some a) := by
  simp [report_p1p2, hab]

/-- In a draw, p1 and p2 are the two record keys in table order. -/
lemma report_p1p2_draw (w a b : PlayerId) (ra rb : LobbyRecord) :
    report_p1p2 w true [(a, ra), (b, rb)] = (some a, some b) := by
  simp [report_p1p2]

/-- C2 (amended): on a lobby with two seated participants past cooldown, a
successful report increments, for both participants, the lobby-scratch
counters (matches_total, and W/L for a decisive result or D/D for a draw)
and, on the persistent Records, only matches_total: the persistent W, L and
D counters are left unchanged (the new ratings are committed alongside). -/
theorem C2_report_increments_counters (ef : ℤ → ℤ → ℚ → ℤ × ℤ)
    (winner a b : PlayerId) (ra rb : LobbyRecord) (pa pb : PlayerRecord)
    (draw : Bool) (now : ℤ) (st : LMState) (l : Lobby)
    (hfind : find_lobby winner st = some l)
    (hrec : l.records = [(a, ra), (b, rb)])
    (hab : a ≠ b)
    (hwin : winner = a ∨ winner = b)
    (hcool : l.last_interaction + COOLDOWN_TIME - now ≤ 0)
    (hpa : st.store a (l.region, l.platform) = some pa)
    (hpb : st.store b (l.region, l.platform) = some pb) :
    ∃ s st1, report_match_result ef winner draw now st = .ok (s, st1) ∧
      st1.lobbies = replace_lobby st.lobbies l.ID
        { l with records := [
            (a, if draw then ⟨ra.matches_total + 1, ra.W, ra.L, ra.D + 1⟩
                else if winner = a then ⟨ra.matches_total + 1, ra.W + 1, ra.L, ra.D⟩
                else ⟨ra.matches_total + 1, ra.W, ra.L + 1, ra.D⟩),
            (b, if draw then ⟨rb.matches_total + 1, rb.W, rb.L, rb.D + 1⟩
                else if winner = b then ⟨rb.matches_total + 1, rb.W + 1, rb.L, rb.D⟩
                else ⟨rb.matches_total + 1, rb.W, rb.L + 1, rb.D⟩)] } ∧
      (st1.store a (l.region, l.platform)).map
          (fun r => (r.matches_total, r.W, r.L, r.D)) =
        some (pa.matches_total + 1, pa.W, pa.L, pa.D) ∧
      (st1.store b (l.region, l.platform)).map
          (fun r => (r.matches_total, r.W, r.L, r.D)) =
        some (pb.matches_total + 1, pb.W, pb.L, pb.D) := by
  have hba : b ≠ a := Ne.symm hab
  have hea := get_elo_present a (l.region, l.platform) st.store pa hpa
  have heb := get_elo_present b (l.region, l.platform) st.store pb hpb
  unfold report_match_result
  rw [hfind]
  simp only []
  rw [if_neg (not_lt.mpr hcool)]
  rw [hrec]
  rcases hwin with hw | hw
  all_goals rw [hw]
  · cases draw
    · rw [report_p1p2_left a b ra rb hba]
      simp only [hea, heb, Bool.false_and, if_neg Bool.false_ne_true]
      refine ⟨_, _, rfl, ?_, ?_, ?_⟩
      · simp [bump_records, hba, hab]
      · simp [store_set, hea, heb, hab, hba]
        exact ⟨pa, hpa, rfl, rfl, rfl, rfl⟩
      · simp [store_set, hea, heb, hab, hba]
        exact ⟨pb, hpb, rfl, rfl, rfl, rfl⟩
    · rw [report_p1p2_draw _ a b ra rb]
      simp only [hea, heb, Bool.true_and]
      by_cases hsw : pb.elo < pa.elo
      · rw [decide_eq_true hsw, if_pos rfl]
        refine ⟨_, _, rfl, ?_, ?_, ?_⟩
        · simp [bump_records]
        · simp [store_set, hea, heb, hab, hba]
          exact ⟨pa, hpa, rfl, rfl, rfl, rfl⟩
        · simp [store_set, hea, heb, hab, hba]
          exact ⟨pb, hpb, rfl, rfl, rfl, rfl⟩
      · rw [decide_eq_false hsw, if_neg Bool.false_ne_true]
        refine ⟨_, _, rfl, ?_, ?_, ?_⟩
        · simp [bump_records]
        · simp [store_set, hea, heb, hab, hba]
          exact ⟨pa, hpa, rfl, rfl, rfl, rfl⟩
        · simp [store_set, hea, heb, hab, hba]
          exact ⟨pb, hpb, rfl, rfl, rfl, rfl⟩
  · cases draw
    · rw [report_p1p2_right a b ra rb hab]
      simp only [hea, heb, Bool.false_and, if_neg Bool.false_ne_true]
      refine ⟨_, _, rfl, ?_, ?_, ?_⟩
      · simp [bump_records, hba, hab]
      · simp [store_set, hea, heb, hab, hba]
        exact ⟨pa, hpa, rfl, rfl, rfl, rfl⟩
      · simp [store_set, hea, heb, hab, hba]
        exact ⟨pb, hpb, rfl, rfl, rfl, rfl⟩
    · rw [report_p1p2_draw _ a b ra rb]
      simp only [hea, heb, Bool.true_and]
      by_cases hsw : pb.elo < pa.elo
      · rw [decide_eq_true hsw, if_pos rfl]
        refine ⟨_, _, rfl, ?_, ?_, ?_⟩
        · simp [bump_records]
        · simp [store_set, hea, heb, hab, hba]
          exact ⟨pa, hpa, rfl, rfl, rfl, rfl⟩
        · simp [store_set, hea, heb, hab, hba]
          exact ⟨pb, hpb, rfl, rfl, rfl, rfl⟩
      · rw [decide_eq_false hsw, if_neg Bool.false_ne_true]
        refine ⟨_, _, rfl, ?_, ?_, ?_⟩
        · simp [bump_records]
        · simp [store_set, hea, heb, hab, hba]
          exact ⟨pa, hpa, rfl, rfl, rfl, rfl⟩
        · simp [store_set, hea, heb, hab, hba]
          exact ⟨pb, hpb, rfl, rfl, rfl, rfl⟩

/-- Witness for C2 at a concrete input: a two-seat lobby with zeroed
records, reported decisively by A at the first instant past cooldown. -/
theorem C2_witness :
    find_lobby "A" twoSeatState = some demoLobby ∧
    ∃ s st1,
      report_match_result ratingZero "A" false 30 twoSeatState = .ok (s, st1) ∧
      st1.lobbies = replace_lobby twoSeatState.lobbies demoLobby.ID
        { demoLobby with records :=
            [("A", ⟨1, 1, 0, 0⟩), ("B", ⟨1, 0, 1, 0⟩)] } ∧
      (st1.store "A" ("NA", "PC")).map
          (fun r => (r.matches_total, r.W, r.L, r.D)) = some (1, 0, 0, 0) ∧
      (st1.store "B" ("NA", "PC")).map
          (fun r => (r.matches_total, r.W, r.L, r.D)) = some (1, 0, 0, 0) := by
  refine ⟨by decide, ?_⟩
  have h := C2_report_increments_counters ratingZero "A" "A" "B"
    ⟨0, 0, 0, 0⟩ ⟨0, 0, 0, 0⟩ ⟨1000, 0, 0, 0, 0⟩ ⟨1000, 0, 0, 0, 0⟩
    false 30 twoSeatState demoLobby (by decide) rfl (by decide)
    (Or.inl rfl) (by decide) (by decide) (by decide)
  simpa [demoLobby] using h

/-- Witness for C6 at a concrete input: A seated alone, B never invited. -/
theorem C6_witness :
    join_lobby bannedNobody "A" "B" 5 soloState =
      .error (.permission "You have not been invited to this lobby.") ∧
    ∃ st1, invite_to_lobby "A" "B" soloState = .ok st1 ∧
      ∃ st2, join_lobby bannedNobody "A" "B" 5 st1 = .ok st2 ∧
        (find_lobby "A" st2).map (fun e => e.players.length) = some 2 :=
  C6_join_requires_invitation bannedNobody "A" "B" 5 5 soloState
    (new_lobby_entry 1 "A" "NA" "PC" 0)
    (by show (soloState.lobbies.map Lobby.ID).Nodup; decide) (by decide)
    rfl rfl (by decide) (by decide)

/-- Witness for C10 at a concrete input: B leaves the demo lobby at 40 and
joins back through host A at 50 without a new invite. -/
theorem C10_witness :
    leave_lobby "B" 40 demoState =
      .ok ⟨replace_lobby demoState.lobbies demoLobby.ID
        (leave_update demoLobby "B" 40), demoState.store⟩ ∧
    (leave_update demoLobby "B" 40).invited_players =
      demoLobby.invited_players ∧
    ∃ st2, join_lobby bannedNobody "A" "B" 50
        ⟨replace_lobby demoState.lobbies demoLobby.ID
          (leave_update demoLobby "B" 40), demoState.store⟩ = .ok st2 ∧
      (find_lobby "A" st2).map (fun e => decide ("B" ∈ e.players)) =
        some true :=
  C10_leave_keeps_invitation bannedNobody "B" "A" 40 50 demoState demoLobby
    (by show (demoState.lobbies.map Lobby.ID).Nodup; decide) (by decide)
    (by decide) (by decide) rfl (by decide) (by decide) (by decide)
